import Mathlib

/-!
Shallow embedding of the `wwog/distributed_provider` repository pieces that the
specification claims talk about:

* the bounded-concurrency admission engine `EventQueue`
  (`src/src/manager/tabScheduler/eventQueue.ts`), and
* the schema column DSL (`verify` / `genCreateSql`) of the validation layer.

The TypeScript code is single-threaded; `setTimeout(() => this.queueLoop())`
defers a dispatch cycle to a later macrotask.  We model the queue state
explicitly, keep a counter of scheduled (not yet run) `queueLoop` callbacks,
and expose every externally observable output (activation events fired on the
task-activation emitter, log lines) as a list of events returned by each
operation.  Runs of the system are lists of labels (public method calls plus
"a scheduled queueLoop callback runs now") interpreted by `stepQueue`/`runQueue`.
-/

section EventQueueModel

variable {T P : Type}

/-- Log severities used by the event queue (`logger.info` / `logger.error`). -/
inductive LogLevel where
  | info : LogLevel
  | error : LogLevel
deriving DecidableEq, Repr

/-- Externally observable outputs of one event-queue operation: an activation
event fired on the `onTaskActivation` emitter carrying the full active set, or
a log line at some severity. -/
inductive EQEvent (T : Type) where
  | activation (tasks : List T)
  | log (level : LogLevel) (msg : String)
deriving DecidableEq, Repr

/-- Modelled from the spec: the `Emitter` class (`src/src/event`) is imported by
`eventQueue.ts` but is not among the sources.  Per the spec it delivers a fired
event to the attached listeners, `hasListeners` tells whether any listener is
attached, and `dispose` "detaches all listeners".  We model it by the number of
attached listeners; `hasListeners` is true when that count is positive. -/
def Emitter.hasListeners (listenerCount : Nat) : Bool :=
  decide (0 < listenerCount)

/-- The mutable state of one `EventQueue` instance: the pending list
(`eventQueue`), the active list (`activeTasks`), the two flags, plus the model
bookkeeping: the number of `setTimeout`-scheduled `queueLoop` callbacks that
have not run yet (`pendingLoops`) and the number of listeners attached to the
task-activation emitter (`listeners`). -/
structure EventQueue (T : Type) where
  eventQueue : List T
  activeTasks : List T
  isDispatching : Bool
  isLoopScheduled : Bool
  pendingLoops : Nat
  listeners : Nat
deriving DecidableEq, Repr

/-- A freshly constructed queue with `listenerCount` listeners attached to the
task-activation emitter. -/
def mkQueue (listenerCount : Nat) : EventQueue T :=
  ⟨[], [], false, false, 0, listenerCount⟩

/-- `static MAX_CONCURRENCY = 5` — the initial value of the class-level limit. -/
def MAX_CONCURRENCY_default : Nat := 5

/-- `static changeConcurrency(value) { this.MAX_CONCURRENCY = value; }` —
overwrites the class-level limit with the given value. -/
def changeConcurrency (_current value : Nat) : Nat := value

/-- `fireActiveTask`: if the emitter has listeners, fire the activation event
with the full current active set; otherwise log at error severity (the tasks
are still considered dispatched). -/
def EventQueue.fireActiveTask (s : EventQueue T) : List (EQEvent T) :=
  if Emitter.hasListeners s.listeners then
    [EQEvent.activation s.activeTasks]
  else
    [EQEvent.log LogLevel.error
      "Severity error !!!!!! No listener for active task, task will be completed"]

/-- `enqueue(task)`: push the task onto the pending list; if no dispatch cycle
is running, mark dispatching and schedule a `queueLoop` via `setTimeout`. -/
def EventQueue.enqueue (s : EventQueue T) (task : T) : EventQueue T × List (EQEvent T) :=
  let s1 : EventQueue T := { s with eventQueue := s.eventQueue ++ [task] }
  if s1.isDispatching = false then
    ({ s1 with isDispatching := true, pendingLoops := s1.pendingLoops + 1 },
      [EQEvent.log LogLevel.info "enqueue"])
  else
    (s1, [EQEvent.log LogLevel.info "enqueue"])

/-- The `while` loop inside `queueLoop`: while the active list is below the
limit and the pending list is non-empty, shift the first pending task and push
it onto the active list.  Returns the final (pending, active) pair. -/
def drainLoop (MAX_CONCURRENCY : Nat) : List T → List T → List T × List T
  | [], activeTasks => ([], activeTasks)
  | task :: rest, activeTasks =>
    if activeTasks.length < MAX_CONCURRENCY then
      drainLoop MAX_CONCURRENCY rest (activeTasks ++ [task])
    else
      (task :: rest, activeTasks)

/-- `queueLoop()`: guarded by `isLoopScheduled` (a reentrancy guard that is set
and cleared within the same synchronous run), move pending tasks into the
active list up to `MAX_CONCURRENCY`, then fire the activation event. -/
def EventQueue.queueLoop (MAX_CONCURRENCY : Nat) (s : EventQueue T) :
    EventQueue T × List (EQEvent T) :=
  if s.isLoopScheduled then (s, [])
  else
    let pa := drainLoop MAX_CONCURRENCY s.eventQueue s.activeTasks
    let s1 : EventQueue T := { s with eventQueue := pa.1, activeTasks := pa.2 }
    (s1, s1.fireActiveTask)

/-- Remove the first element satisfying `p` (the `findIndex` + `splice(idx, 1)`
pair in `completeTask`); the list is unchanged when nothing matches. -/
def removeFirst (p : T → Bool) : List T → List T
  | [] => []
  | t :: ts => if p t then ts else t :: removeFirst p ts

/-- `completeTask(item)`: remove the first active task matched by the
caller-supplied `filter` predicate (logging at info severity), or log at error
severity when none matches.  If the active list is now empty, mark dispatching
idle and, if pending work remains, schedule a new `queueLoop`. -/
def EventQueue.completeTask (filter : P → T → Bool) (s : EventQueue T) (item : P) :
    EventQueue T × List (EQEvent T) :=
  let found := s.activeTasks.any (filter item)
  let ev : List (EQEvent T) :=
    if found then [EQEvent.log LogLevel.info "task completed"]
    else [EQEvent.log LogLevel.error "task not found"]
  let s1 : EventQueue T := { s with activeTasks := removeFirst (filter item) s.activeTasks }
  if s1.activeTasks.length = 0 then
    let s2 : EventQueue T := { s1 with isDispatching := false }
    if 0 < s2.eventQueue.length then
      ({ s2 with pendingLoops := s2.pendingLoops + 1 }, ev)
    else
      (s2, ev)
  else
    (s1, ev)

/-- `reActivation()`: just calls `fireActiveTask`; the state is untouched. -/
def EventQueue.reActivation (s : EventQueue T) : EventQueue T × List (EQEvent T) :=
  (s, s.fireActiveTask)

/-- `destroy()`: clear both lists and dispose the emitter (detaching all
listeners).  The flags and any already-scheduled callbacks are not touched. -/
def EventQueue.destroy (s : EventQueue T) : EventQueue T × List (EQEvent T) :=
  ({ s with eventQueue := [], activeTasks := [], listeners := 0 },
    [EQEvent.log LogLevel.info "destroy"])

/-- One step of a run: a public method call, or a scheduled `queueLoop`
callback firing (`runLoop`). -/
inductive EQLabel (T P : Type) where
  | enq (task : T)
  | runLoop
  | complete (item : P)
  | reAct
deriving DecidableEq, Repr

/-- Interpret one label.  `runLoop` consumes one scheduled callback and runs
`queueLoop`; when no callback is scheduled there is nothing to run. -/
def stepQueue (MAX_CONCURRENCY : Nat) (filter : P → T → Bool) (s : EventQueue T) :
    EQLabel T P → EventQueue T × List (EQEvent T)
  | EQLabel.enq t => s.enqueue t
  | EQLabel.runLoop =>
    if s.pendingLoops = 0 then (s, [])
    else EventQueue.queueLoop MAX_CONCURRENCY { s with pendingLoops := s.pendingLoops - 1 }
  | EQLabel.complete d => EventQueue.completeTask filter s d
  | EQLabel.reAct => s.reActivation

/-- Interpret a list of labels from a starting state, concatenating the
observable events in order. -/
def runQueue (MAX_CONCURRENCY : Nat) (filter : P → T → Bool) (s : EventQueue T) :
    List (EQLabel T P) → EventQueue T × List (EQEvent T)
  | [] => (s, [])
  | l :: ls =>
    let r1 := stepQueue MAX_CONCURRENCY filter s l
    let r2 := runQueue MAX_CONCURRENCY filter r1.1 ls
    (r2.1, r1.2 ++ r2.2)

/-- The multiset of live tasks held by the queue: pending plus active. -/
def liveM (s : EventQueue T) : Multiset T :=
  (s.eventQueue : Multiset T) + (s.activeTasks : Multiset T)

/-- The multiset of tasks enqueued by a list of labels. -/
def enqOf : List (EQLabel T P) → Multiset T
  | [] => 0
  | EQLabel.enq t :: ls => {t} + enqOf ls
  | _ :: ls => enqOf ls

/-- The multiset of tasks removed from the queue (completed) along a run: at
each step, whatever left the combined pending-plus-active multiset. -/
def compOf [DecidableEq T] (MAX_CONCURRENCY : Nat) (filter : P → T → Bool)
    (s : EventQueue T) : List (EQLabel T P) → Multiset T
  | [] => 0
  | l :: ls =>
    let s1 := (stepQueue MAX_CONCURRENCY filter s l).1
    (liveM s - liveM s1) + compOf MAX_CONCURRENCY filter s1 ls

/-- The payloads of the activation events among a list of observable events,
in firing order. -/
def activationsOf : List (EQEvent T) → List (List T)
  | [] => []
  | EQEvent.activation ts :: es => ts :: activationsOf es
  | _ :: es => activationsOf es

/-- Task filter used in the concrete scenarios: the partial descriptor is the
task identifier itself. -/
def filtNat : Nat → Nat → Bool := fun item t => item == t

/-- A fresh queue over `Nat` tasks with one attached listener. -/
def q5 : EventQueue Nat := mkQueue 1

/-- Enqueue tasks 1..7, then let the scheduled dispatch cycle run. -/
def L7 : List (EQLabel Nat Nat) :=
  [EQLabel.enq 1, EQLabel.enq 2, EQLabel.enq 3, EQLabel.enq 4, EQLabel.enq 5,
   EQLabel.enq 6, EQLabel.enq 7, EQLabel.runLoop]

/-- Enqueue tasks 1..6 only (the dispatch they schedule has not run yet). -/
def L6 : List (EQLabel Nat Nat) :=
  [EQLabel.enq 1, EQLabel.enq 2, EQLabel.enq 3, EQLabel.enq 4, EQLabel.enq 5,
   EQLabel.enq 6]

/-- A state with one active task and one listener, used as concrete input. -/
def sOneActive : EventQueue Nat := ⟨[], [1], true, false, 0, 1⟩

/-- A state with pending tasks and no listener attached. -/
def sNoListener : EventQueue Nat := ⟨[1, 2], [], true, false, 0, 0⟩

/-- A state with one pending and one active task, used as concrete input. -/
def sReAct : EventQueue Nat := ⟨[7], [1], true, false, 0, 1⟩

/-- A state with three active tasks and one pending task, used to exercise a
concurrency limit lowered below the current active count. -/
def sRetro : EventQueue Nat := ⟨[6], [1, 2, 3], false, false, 0, 1⟩

end EventQueueModel

section ColumnModel

/-!
Embedding of the schema column DSL.  Values reaching `verify` are arbitrary
JavaScript values; we model the ones relevant to the checks (`undefined`,
`null`, strings, numbers, booleans).  JavaScript numbers are floats; the
bounds used by the DSL are integers, so we model numbers by `Int` and the
string-to-number coercion of comparisons by `String.toInt?` (a value that does
not parse behaves like `NaN`: every comparison involving it is false). -/

/-- The JavaScript values `verify` is exercised with. -/
inductive JSValue where
  | undefined : JSValue
  | null : JSValue
  | str (s : String) : JSValue
  | num (n : Int) : JSValue
  | bool (b : Bool) : JSValue
deriving DecidableEq, Repr

/-- `typeof value === 'string'`. -/
def typeofString : JSValue → Bool
  | JSValue.str _ => true
  | _ => false

/-- `typeof value === 'number'`. -/
def typeofNumber : JSValue → Bool
  | JSValue.num _ => true
  | _ => false

/-- `typeof value === 'boolean'`. -/
def typeofBoolean : JSValue → Bool
  | JSValue.bool _ => true
  | _ => false

/-- JavaScript number coercion as used by `<` / `>` against a number;
`Option.none` stands for `NaN`. -/
def toNumber : JSValue → Option Int
  | JSValue.undefined => Option.none
  | JSValue.null => Option.some 0
  | JSValue.str s => s.toInt?
  | JSValue.num n => Option.some n
  | JSValue.bool b => Option.some (if b then 1 else 0)

/-- `value > b` for a numeric right-hand side (comparisons with `NaN` are
false). -/
def jsNumGT (v : JSValue) (b : Int) : Bool :=
  match toNumber v with
  | Option.some n => decide (b < n)
  | Option.none => false

/-- `value < b` for a numeric right-hand side (comparisons with `NaN` are
false). -/
def jsNumLT (v : JSValue) (b : Int) : Bool :=
  match toNumber v with
  | Option.some n => decide (n < b)
  | Option.none => false

/-- Reading `value.length`: throws a `TypeError` on `null`/`undefined`, yields
the string length on strings, and `undefined` on other primitives. -/
def jsLength : JSValue → Except String JSValue
  | JSValue.undefined => Except.error "TypeError"
  | JSValue.null => Except.error "TypeError"
  | JSValue.str s => Except.ok (JSValue.num (s.length : Int))
  | JSValue.num _ => Except.ok JSValue.undefined
  | JSValue.bool _ => Except.ok JSValue.undefined

/-- Truthiness of an optional numeric field (`this._max && ...`): `undefined`
and `0` are falsy. -/
def truthyNum : Option Int → Bool
  | Option.some n => n != 0
  | Option.none => false

/-- `this._enums.includes(value)` for string enums (`===` semantics). -/
def jsIncludes (es : List String) (v : JSValue) : Bool :=
  match v with
  | JSValue.str s => es.contains s
  | _ => false

/-- `this._enums.includes(value)` for integer enums (`===` semantics). -/
def jsIncludesInt (es : List Int) (v : JSValue) : Bool :=
  match v with
  | JSValue.num n => es.contains n
  | _ => false

/-- The enum violation message for string enums. -/
def enumMsgStr (es : List String) : String :=
  let joined := String.intercalate ", " es
  s!"value must be one of {joined}"

/-- The enum violation message for integer enums. -/
def enumMsgInt (es : List Int) : String :=
  let joined := String.intercalate ", " (es.map toString)
  s!"value must be one of {joined}"

/-- The constraint flags of the `ColumnType` base class. -/
structure ColumnFlags where
  _required : Bool := true
  _unique : Bool := false
  _primary : Bool := false
  _autoIncrement : Bool := false
deriving DecidableEq, Repr

/-- `ColumnType.verify`: the base required-value check. -/
def ColumnType.verify (required : Bool) (v : JSValue) : List String :=
  if required then
    if v = JSValue.undefined ∨ v = JSValue.null then ["value is required"] else []
  else []

/-- `ColumnType.genCreateSql`: throws when `AUTOINCREMENT` is requested without
`PRIMARY KEY`; otherwise pushes the constraint keywords in the fixed source
order. -/
def ColumnType.genCreateSql (f : ColumnFlags) : Except String (List String) :=
  if f._autoIncrement && !f._primary then
    Except.error "AUTOINCREMENT can only be applied to a primary key"
  else
    Except.ok ((if f._primary then ["PRIMARY KEY"] else [])
      ++ (if f._required then ["NOT NULL"] else [])
      ++ (if f._unique then ["UNIQUE"] else [])
      ++ (if f._autoIncrement then ["AUTOINCREMENT"] else []))

/-- `ColumnText` instance data (flags inherited from `ColumnType`). -/
structure ColumnText where
  flags : ColumnFlags := {}
  _max : Option Int := Option.none
  _min : Option Int := Option.none
  _enums : Option (List String) := Option.none
  _default : Option String := Option.none
deriving DecidableEq, Repr

/-- Whether `ColumnText.verify` reads `value.length`: exactly when a truthy
`_max` or `_min` bound is present. -/
def ColumnText.usesLen (c : ColumnText) : Bool :=
  truthyNum c._max || truthyNum c._min

/-- The violation messages of `ColumnText.verify`, given the (already read)
value of `value.length`.  Each check mirrors one `if` of the source, in source
order. -/
def ColumnText.msgsWithLen (c : ColumnText) (v lenV : JSValue) : List String :=
  ColumnType.verify c.flags._required v
  ++ (if typeofString v then [] else ["value must be string"])
  ++ (match c._max with
      | Option.some b =>
        if (b != 0) && jsNumGT lenV b then [s!"value length must less than {b}"] else []
      | Option.none => [])
  ++ (match c._min with
      | Option.some b =>
        if (b != 0) && jsNumLT lenV b then [s!"value length must greater than {b}"] else []
      | Option.none => [])
  ++ (match c._enums with
      | Option.some es => if jsIncludes es v then [] else [enumMsgStr es]
      | Option.none => [])

/-- `ColumnText.verify`.  The two length checks of the source are the only
places it can throw (reading `.length` of `null`/`undefined`); the length is
read only when a truthy `_max` or `_min` bound is present, and both checks read
the same `value.length`, so we bind it once. -/
def ColumnText.verify (c : ColumnText) (v : JSValue) : Except String (List String) :=
  if c.usesLen then
    match jsLength v with
    | Except.error e => Except.error e
    | Except.ok lenV => Except.ok (c.msgsWithLen v lenV)
  else
    Except.ok (c.msgsWithLen v JSValue.undefined)

/-- `ColumnInteger` instance data. -/
structure ColumnInteger where
  flags : ColumnFlags := {}
  _max : Option Int := Option.none
  _min : Option Int := Option.none
  _enums : Option (List Int) := Option.none
  _default : Option Int := Option.none
deriving DecidableEq, Repr

/-- `ColumnInteger.verify`: the comparisons coerce the value to a number and
never throw. -/
def ColumnInteger.verify (c : ColumnInteger) (v : JSValue) : Except String (List String) :=
  Except.ok (ColumnType.verify c.flags._required v
    ++ (if typeofNumber v then [] else ["value must be number"])
    ++ (match c._max with
        | Option.some b =>
          if (b != 0) && jsNumGT v b then [s!"value must less than {b}"] else []
        | Option.none => [])
    ++ (match c._min with
        | Option.some b =>
          if (b != 0) && jsNumLT v b then [s!"value must greater than {b}"] else []
        | Option.none => [])
    ++ (match c._enums with
        | Option.some es => if jsIncludesInt es v then [] else [enumMsgInt es]
        | Option.none => []))

/-- `ColumnBoolean` instance data. -/
structure ColumnBoolean where
  flags : ColumnFlags := {}
  _default : Option Bool := Option.none
deriving DecidableEq, Repr

/-- `ColumnBoolean.verify`. -/
def ColumnBoolean.verify (c : ColumnBoolean) (v : JSValue) : Except String (List String) :=
  Except.ok (ColumnType.verify c.flags._required v
    ++ (if typeofBoolean v then [] else ["value must be boolean"]))

/-- `ColumnDate` instance data (it does not override `verify`). -/
structure ColumnDate where
  flags : ColumnFlags := {}
deriving DecidableEq, Repr

/-- `ColumnDate.verify` is the inherited `ColumnType.verify`. -/
def ColumnDate.verify (c : ColumnDate) (v : JSValue) : Except String (List String) :=
  Except.ok (ColumnType.verify c.flags._required v)

/-- A declared column: one of the concrete column classes, or the
`ColumnOptional` wrapper.  The DSL's `optional()` constructs the wrapper after
forcing the wrapped column's `_required` flag to `false`; the wrapper's
`verify` simply delegates to the wrapped column. -/
inductive Column where
  | text (c : ColumnText)
  | integer (c : ColumnInteger)
  | boolean (c : ColumnBoolean)
  | date (c : ColumnDate)
  | optional (c : Column)
deriving DecidableEq, Repr

/-- `verify` dispatched over the column kinds; `ColumnOptional.verify`
delegates to the wrapped column. -/
def Column.verify : Column → JSValue → Except String (List String)
  | Column.text c, v => c.verify v
  | Column.integer c, v => c.verify v
  | Column.boolean c, v => c.verify v
  | Column.date c, v => c.verify v
  | Column.optional c, v => Column.verify c v

/-- The `_required` flag that actually governs the required check of
`Column.verify` (for the optional wrapper: the wrapped column's flag). -/
def Column.requiredFlag : Column → Bool
  | Column.text c => c.flags._required
  | Column.integer c => c.flags._required
  | Column.boolean c => c.flags._required
  | Column.date c => c.flags._required
  | Column.optional c => Column.requiredFlag c

/-- Whether the column's `verify` reads `value.length`: a text column with a
truthy `_max` or `_min` bound, possibly under optional wrappers. -/
def Column.hasLenBound : Column → Bool
  | Column.text c => c.usesLen
  | Column.optional c => Column.hasLenBound c
  | _ => false

end ColumnModel

section EventQueueLemmas

variable {T P : Type}

theorem enqueue_fst (s : EventQueue T) (t : T) :
    (s.enqueue t).1.eventQueue = s.eventQueue ++ [t] ∧
    (s.enqueue t).1.activeTasks = s.activeTasks ∧
    (s.enqueue t).1.isLoopScheduled = s.isLoopScheduled ∧
    (s.enqueue t).1.listeners = s.listeners := by
  by_cases h : s.isDispatching = false <;> simp [EventQueue.enqueue, h]

theorem enqueue_snd (s : EventQueue T) (t : T) :
    (s.enqueue t).2 = [EQEvent.log LogLevel.info "enqueue"] := by
  by_cases h : s.isDispatching = false <;> simp [EventQueue.enqueue, h]

theorem enqueue_pendingLoops (s : EventQueue T) (t : T) :
    (s.enqueue t).1.pendingLoops =
      (if s.isDispatching = false then s.pendingLoops + 1 else s.pendingLoops) := by
  by_cases h : s.isDispatching = false <;> simp [EventQueue.enqueue, h]

theorem completeTask_fst (f : P → T → Bool) (s : EventQueue T) (d : P) :
    (EventQueue.completeTask f s d).1.activeTasks = removeFirst (f d) s.activeTasks ∧
    (EventQueue.completeTask f s d).1.eventQueue = s.eventQueue ∧
    (EventQueue.completeTask f s d).1.listeners = s.listeners := by
  unfold EventQueue.completeTask
  by_cases h1 : (removeFirst (f d) s.activeTasks).length = 0 <;>
    by_cases h2 : 0 < s.eventQueue.length <;>
      simp [h1, h2]

theorem completeTask_snd (f : P → T → Bool) (s : EventQueue T) (d : P) :
    (EventQueue.completeTask f s d).2 =
      (if s.activeTasks.any (f d) then [EQEvent.log LogLevel.info "task completed"]
       else [EQEvent.log LogLevel.error "task not found"]) := by
  unfold EventQueue.completeTask
  by_cases h1 : (removeFirst (f d) s.activeTasks).length = 0 <;>
    by_cases h2 : 0 < s.eventQueue.length <;>
      simp [h1, h2]

theorem removeFirst_of_any_eq_false (p : T → Bool) (l : List T) (h : l.any p = false) :
    removeFirst p l = l := by
  induction l with
  | nil => rfl
  | cons t ts ih =>
    simp only [List.any_cons, Bool.or_eq_false_iff] at h
    simp [removeFirst, h.1, ih h.2]

theorem removeFirst_length_le (p : T → Bool) (l : List T) :
    (removeFirst p l).length ≤ l.length := by
  induction l with
  | nil => simp [removeFirst]
  | cons t ts ih =>
    by_cases h : p t = true
    · simp only [removeFirst, if_pos h, List.length_cons]
      exact Nat.le_succ _
    · simp only [removeFirst, if_neg h, List.length_cons]
      omega

theorem removeFirst_sublist (p : T → Bool) (l : List T) :
    List.Sublist (removeFirst p l) l := by
  induction l with
  | nil => simp [removeFirst]
  | cons t ts ih =>
    by_cases h : p t = true
    · simp only [removeFirst, if_pos h]
      exact List.sublist_cons_self t ts
    · simp only [removeFirst, if_neg h]
      exact List.cons_sublist_cons.mpr ih

theorem drainLoop_multiset (mx : Nat) (p a : List T) :
    ((drainLoop mx p a).1 : Multiset T) + ((drainLoop mx p a).2 : Multiset T)
      = (p : Multiset T) + (a : Multiset T) := by
  induction p generalizing a with
  | nil => simp [drainLoop]
  | cons t rest ih =>
    by_cases h : a.length < mx
    · simp only [drainLoop, if_pos h]
      rw [ih]
      rw [Multiset.coe_add, Multiset.coe_add, Multiset.coe_eq_coe, ← List.append_assoc]
      exact List.perm_append_singleton t (rest ++ a)
    · simp [drainLoop, h]

theorem drainLoop_len_le (mx : Nat) (p a : List T) (h : a.length ≤ mx) :
    (drainLoop mx p a).2.length ≤ mx := by
  induction p generalizing a with
  | nil => simpa [drainLoop] using h
  | cons t rest ih =>
    by_cases hlt : a.length < mx
    · simp only [drainLoop, if_pos hlt]
      exact ih (a ++ [t]) (by simp; omega)
    · simpa [drainLoop, hlt] using h

theorem drainLoop_len_le_max (mx : Nat) (p a : List T) :
    (drainLoop mx p a).2.length ≤ max a.length mx := by
  by_cases h : a.length ≤ mx
  · exact le_trans (drainLoop_len_le mx p a h) (le_max_right _ _)
  · have : ¬ a.length < mx := by omega
    cases p with
    | nil => simp [drainLoop, le_max_left]
    | cons t rest => simp [drainLoop, this, le_max_left]

theorem drainLoop_active_extends (mx : Nat) (p a : List T) :
    ∃ l, (drainLoop mx p a).2 = a ++ l := by
  induction p generalizing a with
  | nil => exact ⟨[], by simp [drainLoop]⟩
  | cons t rest ih =>
    by_cases h : a.length < mx
    · obtain ⟨l, hl⟩ := ih (a ++ [t])
      exact ⟨t :: l, by simp only [drainLoop, if_pos h, hl, List.append_assoc]; rfl⟩
    · exact ⟨[], by simp [drainLoop, h]⟩

theorem drainLoop_no_capacity (mx : Nat) (p a : List T) (h : mx ≤ a.length) :
    drainLoop mx p a = (p, a) := by
  cases p with
  | nil => rfl
  | cons t rest => simp [drainLoop, show ¬ a.length < mx by omega]

theorem drainLoop_admits_all (mx : Nat) (p a : List T) (h : a.length + p.length ≤ mx) :
    drainLoop mx p a = ([], a ++ p) := by
  induction p generalizing a with
  | nil => simp [drainLoop]
  | cons t rest ih =>
    simp only [List.length_cons] at h
    have hlt : a.length < mx := by omega
    simp only [drainLoop, if_pos hlt]
    rw [ih (a ++ [t])
      (by simp only [List.length_append, List.length_cons, List.length_nil]; omega)]
    simp

theorem queueLoop_fst (mx : Nat) (s : EventQueue T) (h : s.isLoopScheduled = false) :
    (s.queueLoop mx).1.eventQueue = (drainLoop mx s.eventQueue s.activeTasks).1 ∧
    (s.queueLoop mx).1.activeTasks = (drainLoop mx s.eventQueue s.activeTasks).2 ∧
    (s.queueLoop mx).1.listeners = s.listeners := by
  simp [EventQueue.queueLoop, h]

theorem queueLoop_snd (mx : Nat) (s : EventQueue T) (h : s.isLoopScheduled = false) :
    (s.queueLoop mx).2 =
      (if Emitter.hasListeners s.listeners then
        [EQEvent.activation (drainLoop mx s.eventQueue s.activeTasks).2]
       else
        [EQEvent.log LogLevel.error
          "Severity error !!!!!! No listener for active task, task will be completed"]) := by
  simp [EventQueue.queueLoop, h, EventQueue.fireActiveTask]

theorem queueLoop_update (mx k : Nat) (s : EventQueue T) (hls : s.isLoopScheduled = false) :
    (EventQueue.queueLoop mx { s with pendingLoops := k }).1 =
      { s with pendingLoops := k,
               eventQueue := (drainLoop mx s.eventQueue s.activeTasks).1,
               activeTasks := (drainLoop mx s.eventQueue s.activeTasks).2 } ∧
    (EventQueue.queueLoop mx { s with pendingLoops := k }).2 =
      (if Emitter.hasListeners s.listeners then
        [EQEvent.activation (drainLoop mx s.eventQueue s.activeTasks).2]
       else
        [EQEvent.log LogLevel.error
          "Severity error !!!!!! No listener for active task, task will be completed"]) := by
  constructor <;> simp [EventQueue.queueLoop, hls, EventQueue.fireActiveTask]

end EventQueueLemmas

section ClaimTheoremsA

variable {T P : Type}

/-- C4: calling `completeTask` with a descriptor whose filter predicate matches
no active task leaves the active and pending lists unchanged, logs at error
severity ("task not found"), and does not throw (the operation is a total
function on the model); nothing aborts the dispatch cycle. -/
theorem completeTask_no_match_frame (f : P → T → Bool) (s : EventQueue T) (d : P)
    (h : s.activeTasks.any (f d) = false) :
    (EventQueue.completeTask f s d).1.activeTasks = s.activeTasks ∧
    (EventQueue.completeTask f s d).1.eventQueue = s.eventQueue ∧
    EQEvent.log LogLevel.error "task not found" ∈ (EventQueue.completeTask f s d).2 := by
  refine ⟨?_, (completeTask_fst f s d).2.1, ?_⟩
  · rw [(completeTask_fst f s d).1, removeFirst_of_any_eq_false _ _ h]
  · rw [completeTask_snd f s d, if_neg (by simp [h])]
    exact List.mem_singleton.mpr rfl

/-- Witness for C4 at a concrete input: active list `[1]`, descriptor `2`. -/
theorem completeTask_no_match_frame_witness :
    (EventQueue.completeTask filtNat sOneActive 2).1.activeTasks = sOneActive.activeTasks ∧
    (EventQueue.completeTask filtNat sOneActive 2).1.eventQueue = sOneActive.eventQueue ∧
    EQEvent.log LogLevel.error "task not found" ∈
      (EventQueue.completeTask filtNat sOneActive 2).2 :=
  completeTask_no_match_frame filtNat sOneActive 2 (by decide)

/-- C6: a dispatch cycle fired with zero listeners attached emits exactly one
error-severity log line, no activation event, and throws nothing; the admitted
tasks are still treated as dispatched — the active list extends the previous
one, and no task leaves the combined pending-plus-active multiset. -/
theorem queueLoop_no_listener_policy (mx : Nat) (s : EventQueue T)
    (h0 : s.listeners = 0) (h1 : s.isLoopScheduled = false) :
    (s.queueLoop mx).2 = [EQEvent.log LogLevel.error
      "Severity error !!!!!! No listener for active task, task will be completed"] ∧
    (∀ ts, EQEvent.activation ts ∉ (s.queueLoop mx).2) ∧
    liveM (s.queueLoop mx).1 = liveM s ∧
    (∃ l, (s.queueLoop mx).1.activeTasks = s.activeTasks ++ l) := by
  have hfire : Emitter.hasListeners s.listeners = false := by
    simp [Emitter.hasListeners, h0]
  refine ⟨?_, ?_, ?_, ?_⟩
  · rw [queueLoop_snd mx s h1, if_neg (by simp [hfire])]
  · intro ts hmem
    rw [queueLoop_snd mx s h1, if_neg (by simp [hfire])] at hmem
    simp at hmem
  · unfold liveM
    rw [(queueLoop_fst mx s h1).1, (queueLoop_fst mx s h1).2.1]
    exact drainLoop_multiset mx s.eventQueue s.activeTasks
  · rw [(queueLoop_fst mx s h1).2.1]
    exact drainLoop_active_extends mx s.eventQueue s.activeTasks

/-- Witness for C6 at a concrete input: two pending tasks, no listener. -/
theorem queueLoop_no_listener_policy_witness :
    (EventQueue.queueLoop 5 sNoListener).2 = [EQEvent.log LogLevel.error
      "Severity error !!!!!! No listener for active task, task will be completed"] ∧
    (∀ ts, EQEvent.activation ts ∉ (EventQueue.queueLoop 5 sNoListener).2) ∧
    liveM (EventQueue.queueLoop 5 sNoListener).1 = liveM sNoListener ∧
    (∃ l, (EventQueue.queueLoop 5 sNoListener).1.activeTasks =
      sNoListener.activeTasks ++ l) :=
  queueLoop_no_listener_policy 5 sNoListener rfl rfl

/-- C7: the class-level limit starts at 5 and `changeConcurrency` overwrites it
with the new value; the next dispatch cycle's admission check uses the limit
handed to it (the resulting active list stays below `max` of the old length
and the new limit), and the change is never retroactive: the previous active
list is an initial segment of the new one, and a limit at or below the current
active count admits nothing and removes nothing. -/
theorem concurrency_runtime_change :
    MAX_CONCURRENCY_default = 5 ∧
    (∀ current value : Nat, changeConcurrency current value = value) ∧
    (∀ (T : Type) (mx : Nat) (s : EventQueue T),
      (∃ l, (s.queueLoop mx).1.activeTasks = s.activeTasks ++ l) ∧
      (s.queueLoop mx).1.activeTasks.length ≤ max s.activeTasks.length mx) ∧
    (∀ (T : Type) (mx : Nat) (s : EventQueue T), s.isLoopScheduled = false →
      mx ≤ s.activeTasks.length →
      (s.queueLoop mx).1.activeTasks = s.activeTasks ∧
      (s.queueLoop mx).1.eventQueue = s.eventQueue) := by
  refine ⟨rfl, fun _ _ => rfl, ?_, ?_⟩
  · intro T mx s
    cases hls : s.isLoopScheduled with
    | false =>
      constructor
      · rw [(queueLoop_fst mx s hls).2.1]
        exact drainLoop_active_extends mx s.eventQueue s.activeTasks
      · rw [(queueLoop_fst mx s hls).2.1]
        exact drainLoop_len_le_max mx s.eventQueue s.activeTasks
    | true =>
      constructor
      · exact ⟨[], by simp [EventQueue.queueLoop, hls]⟩
      · simp only [EventQueue.queueLoop, hls, if_pos]
        exact le_max_left _ _
  · intro T mx s hls hle
    have h1 := (queueLoop_fst mx s hls).1
    have h2 := (queueLoop_fst mx s hls).2.1
    rw [drainLoop_no_capacity mx _ _ hle] at h1 h2
    exact ⟨h2, h1⟩

/-- Witness for C7 at a concrete input: limit lowered to 2 with 3 active. -/
theorem concurrency_runtime_change_witness :
    (EventQueue.queueLoop 2 sRetro).1.activeTasks = sRetro.activeTasks ∧
    (EventQueue.queueLoop 2 sRetro).1.eventQueue = sRetro.eventQueue :=
  concurrency_runtime_change.2.2.2 Nat 2 sRetro rfl (by decide)

/-- C8: `reActivation` changes no queue state — the pending list, the active
list, both flags and the scheduled-callback count are identical before and
after — and, when a listener is attached, it re-fires the activation event
carrying the current active set. -/
theorem reActivation_frame (s : EventQueue T) :
    (s.reActivation).1.eventQueue = s.eventQueue ∧
    (s.reActivation).1.activeTasks = s.activeTasks ∧
    (s.reActivation).1.isDispatching = s.isDispatching ∧
    (s.reActivation).1.isLoopScheduled = s.isLoopScheduled ∧
    (s.reActivation).1.pendingLoops = s.pendingLoops ∧
    (0 < s.listeners → (s.reActivation).2 = [EQEvent.activation s.activeTasks]) := by
  refine ⟨rfl, rfl, rfl, rfl, rfl, ?_⟩
  intro h
  simp [EventQueue.reActivation, EventQueue.fireActiveTask, Emitter.hasListeners, h]

/-- Witness for C8 at a concrete input: a queue with one listener attached. -/
theorem reActivation_frame_witness :
    (EventQueue.reActivation sReAct).2 = [EQEvent.activation sReAct.activeTasks] :=
  (reActivation_frame sReAct).2.2.2.2.2 (by decide)

end ClaimTheoremsA

section StepLemmas

variable {T P : Type}

theorem stepQueue_active_le (mx : Nat) (f : P → T → Bool) (s : EventQueue T)
    (l : EQLabel T P) (h : s.activeTasks.length ≤ mx) :
    (stepQueue mx f s l).1.activeTasks.length ≤ mx := by
  cases l with
  | enq t =>
    show (s.enqueue t).1.activeTasks.length ≤ mx
    rw [(enqueue_fst s t).2.1]
    exact h
  | runLoop =>
    by_cases hp : s.pendingLoops = 0
    · simpa [stepQueue, hp] using h
    · simp only [stepQueue, if_neg hp]
      by_cases hls : s.isLoopScheduled = false
      · rw [(queueLoop_update mx (s.pendingLoops - 1) s hls).1]
        simpa using drainLoop_len_le mx s.eventQueue s.activeTasks h
      · simp only [Bool.not_eq_false] at hls
        simpa [EventQueue.queueLoop, hls] using h
  | complete d =>
    show (EventQueue.completeTask f s d).1.activeTasks.length ≤ mx
    rw [(completeTask_fst f s d).1]
    exact le_trans (removeFirst_length_le _ _) h
  | reAct => exact h

theorem stepQueue_listeners (mx : Nat) (f : P → T → Bool) (s : EventQueue T)
    (l : EQLabel T P) :
    (stepQueue mx f s l).1.listeners = s.listeners := by
  cases l with
  | enq t => exact (enqueue_fst s t).2.2.2
  | runLoop =>
    by_cases hp : s.pendingLoops = 0
    · simp [stepQueue, hp]
    · simp only [stepQueue, if_neg hp]
      by_cases hls : s.isLoopScheduled = false
      · rw [(queueLoop_update mx (s.pendingLoops - 1) s hls).1]
      · simp only [Bool.not_eq_false] at hls
        simp [EventQueue.queueLoop, hls]
  | complete d => exact (completeTask_fst f s d).2.2
  | reAct => rfl

theorem stepQueue_liveM (mx : Nat) (f : P → T → Bool) [DecidableEq T] (s : EventQueue T)
    (l : EQLabel T P) :
    liveM (stepQueue mx f s l).1 + (liveM s - liveM (stepQueue mx f s l).1)
      = liveM s + enqOf [l] := by
  cases l with
  | enq t =>
    have he : liveM (stepQueue mx f s (EQLabel.enq t)).1 = liveM s + {t} := by
      show liveM (s.enqueue t).1 = liveM s + {t}
      unfold liveM
      rw [(enqueue_fst s t).1, (enqueue_fst s t).2.1, ← Multiset.coe_add,
        Multiset.coe_singleton]
      ac_rfl
    rw [he, tsub_eq_zero_of_le (self_le_add_right _ _), add_zero]
    simp [enqOf]
  | runLoop =>
    have he : liveM (stepQueue mx f s EQLabel.runLoop).1 = liveM s := by
      by_cases hp : s.pendingLoops = 0
      · simp [stepQueue, hp]
      · simp only [stepQueue, if_neg hp]
        by_cases hls : s.isLoopScheduled = false
        · rw [(queueLoop_update mx (s.pendingLoops - 1) s hls).1]
          simpa [liveM] using drainLoop_multiset mx s.eventQueue s.activeTasks
        · simp only [Bool.not_eq_false] at hls
          simp [EventQueue.queueLoop, hls, liveM]
    rw [he, tsub_self, add_zero]
    simp [enqOf]
  | complete d =>
    have hle : liveM (stepQueue mx f s (EQLabel.complete d)).1 ≤ liveM s := by
      show liveM (EventQueue.completeTask f s d).1 ≤ liveM s
      unfold liveM
      rw [(completeTask_fst f s d).1, (completeTask_fst f s d).2.1]
      exact add_le_add le_rfl
        (Multiset.coe_le.mpr (removeFirst_sublist (f d) s.activeTasks).subperm)
    rw [add_tsub_cancel_of_le hle]
    simp [enqOf]
  | reAct =>
    rw [show (stepQueue mx f s EQLabel.reAct).1 = s from rfl, tsub_self, add_zero]
    simp [enqOf]

theorem stepQueue_no_activation (mx : Nat) (f : P → T → Bool) (s : EventQueue T)
    (l : EQLabel T P) (h : s.listeners = 0) (ts : List T) :
    EQEvent.activation ts ∉ (stepQueue mx f s l).2 := by
  cases l with
  | enq t =>
    rw [show (stepQueue mx f s (EQLabel.enq t)).2 = (s.enqueue t).2 from rfl, enqueue_snd]
    simp
  | runLoop =>
    by_cases hp : s.pendingLoops = 0
    · simp [stepQueue, hp]
    · simp only [stepQueue, if_neg hp]
      by_cases hls : s.isLoopScheduled = false
      · rw [(queueLoop_update mx (s.pendingLoops - 1) s hls).2,
          if_neg (by simp [Emitter.hasListeners, h])]
        simp
      · simp only [Bool.not_eq_false] at hls
        simp [EventQueue.queueLoop, hls]
  | complete d =>
    rw [show (stepQueue mx f s (EQLabel.complete d)).2 = (EventQueue.completeTask f s d).2
        from rfl,
      completeTask_snd]
    by_cases hf : s.activeTasks.any (f d) = true <;> simp [hf]
  | reAct =>
    show EQEvent.activation ts ∉ s.fireActiveTask
    rw [EventQueue.fireActiveTask, if_neg (by simp [Emitter.hasListeners, h])]
    simp

theorem enqOf_cons (l : EQLabel T P) (ls : List (EQLabel T P)) :
    (enqOf (l :: ls) : Multiset T) = enqOf [l] + enqOf ls := by
  cases l <;> simp [enqOf]

theorem runQueue_invariant (mx : Nat) (f : P → T → Bool) [DecidableEq T]
    (L : List (EQLabel T P)) :
    ∀ s : EventQueue T, s.activeTasks.length ≤ mx →
    (runQueue mx f s L).1.activeTasks.length ≤ mx ∧
    liveM (runQueue mx f s L).1 + compOf mx f s L = liveM s + enqOf L := by
  induction L with
  | nil =>
    intro s h
    simp [runQueue, compOf, enqOf, h]
  | cons l ls ih =>
    intro s h
    have hstep := stepQueue_active_le mx f s l h
    obtain ⟨ih1, ih2⟩ := ih (stepQueue mx f s l).1 hstep
    have hl := stepQueue_liveM mx f s l
    refine ⟨by simpa [runQueue] using ih1, ?_⟩
    simp only [runQueue, compOf]
    have e1 : liveM (runQueue mx f (stepQueue mx f s l).1 ls).1 +
        ((liveM s - liveM (stepQueue mx f s l).1) + compOf mx f (stepQueue mx f s l).1 ls) =
        (liveM (runQueue mx f (stepQueue mx f s l).1 ls).1 +
          compOf mx f (stepQueue mx f s l).1 ls) +
        (liveM s - liveM (stepQueue mx f s l).1) := by ac_rfl
    rw [e1, ih2, enqOf_cons]
    have e2 : (liveM (stepQueue mx f s l).1 + enqOf ls) +
        (liveM s - liveM (stepQueue mx f s l).1) =
        (liveM (stepQueue mx f s l).1 + (liveM s - liveM (stepQueue mx f s l).1)) +
          enqOf ls := by ac_rfl
    rw [e2, hl]
    ac_rfl

theorem runQueue_no_activation (mx : Nat) (f : P → T → Bool) (L : List (EQLabel T P)) :
    ∀ s : EventQueue T, s.listeners = 0 →
    ∀ ts, EQEvent.activation ts ∉ (runQueue mx f s L).2 := by
  induction L with
  | nil =>
    intro s h ts
    simp [runQueue]
  | cons l ls ih =>
    intro s h ts
    simp only [runQueue, List.mem_append]
    rintro (hmem | hmem)
    · exact stepQueue_no_activation mx f s l h ts hmem
    · exact ih (stepQueue mx f s l).1 (by rw [stepQueue_listeners]; exact h) ts hmem

end StepLemmas

section ClaimTheoremsB

variable {T P : Type}

/-- C1: along every run of `enqueue`, `completeTask` and `reActivation` calls
(together with the dispatch cycles they schedule) from a fresh queue, with the
concurrency limit held fixed at a positive value, the active list never
exceeds the limit; and the tasks enqueued so far are partitioned exactly into
pending, active and completed — so every live (not yet completed) task sits in
exactly one place among the pending and active lists. -/
theorem eventQueue_bounded_and_partition (mx : Nat) (f : P → T → Bool) [DecidableEq T]
    (hpos : 0 < mx) (k : Nat) (L : List (EQLabel T P)) :
    (runQueue mx f (mkQueue k) L).1.activeTasks.length ≤ mx ∧
    liveM (runQueue mx f (mkQueue k) L).1 + compOf mx f (mkQueue k) L = enqOf L := by
  have h := runQueue_invariant mx f L (mkQueue k) (by simp [mkQueue])
  refine ⟨h.1, ?_⟩
  rw [h.2]
  simp [liveM, mkQueue]

/-- Witness for C1 at a concrete input: limit 5, the seven-task scenario. -/
theorem eventQueue_bounded_and_partition_witness :
    (runQueue 5 filtNat (mkQueue 1) L7).1.activeTasks.length ≤ 5 ∧
    liveM (runQueue 5 filtNat (mkQueue 1) L7).1 + compOf 5 filtNat (mkQueue 1) L7
      = enqOf L7 :=
  eventQueue_bounded_and_partition 5 filtNat (by decide) 1 L7

/-- C2 counterexample: limit 5, enqueue 7 tasks, let the scheduled dispatch
run — the first activation carries `[1..5]` with `[6, 7]` pending; but after
`completeTask` of task 1 the active list is `[2, 3, 4, 5]`, no dispatch cycle
is scheduled (`pendingLoops = 0`), and no further activation event fires even
if another loop turn is taken — the claimed second activation event with 5
active tasks and 1 pending never happens. -/
theorem scenario_seven_tasks_cex :
    activationsOf (runQueue 5 filtNat q5 (L7 ++ [EQLabel.complete 1])).2
      = [[1, 2, 3, 4, 5]] ∧
    (runQueue 5 filtNat q5 (L7 ++ [EQLabel.complete 1])).1.activeTasks = [2, 3, 4, 5] ∧
    (runQueue 5 filtNat q5 (L7 ++ [EQLabel.complete 1])).1.eventQueue = [6, 7] ∧
    (runQueue 5 filtNat q5 (L7 ++ [EQLabel.complete 1])).1.pendingLoops = 0 ∧
    activationsOf (runQueue 5 filtNat q5 (L7 ++ [EQLabel.complete 1, EQLabel.runLoop])).2
      = [[1, 2, 3, 4, 5]] := by
  decide

/-- C2 amended: the first activation event reports exactly the five admitted
tasks with two pending; one matching `completeTask` shrinks the active set to
four and schedules nothing; a new dispatch cycle — which then reports the two
remaining tasks — fires only after the active set has drained completely. -/
theorem scenario_seven_tasks_amended :
    activationsOf (runQueue 5 filtNat q5 L7).2 = [[1, 2, 3, 4, 5]] ∧
    (runQueue 5 filtNat q5 L7).1.activeTasks = [1, 2, 3, 4, 5] ∧
    (runQueue 5 filtNat q5 L7).1.eventQueue = [6, 7] ∧
    activationsOf (runQueue 5 filtNat q5 (L7 ++ [EQLabel.complete 1, EQLabel.complete 2,
        EQLabel.complete 3, EQLabel.complete 4, EQLabel.complete 5, EQLabel.runLoop])).2
      = [[1, 2, 3, 4, 5], [6, 7]] ∧
    (runQueue 5 filtNat q5 (L7 ++ [EQLabel.complete 1, EQLabel.complete 2,
        EQLabel.complete 3, EQLabel.complete 4, EQLabel.complete 5,
        EQLabel.runLoop])).1.activeTasks = [6, 7] ∧
    (runQueue 5 filtNat q5 (L7 ++ [EQLabel.complete 1, EQLabel.complete 2,
        EQLabel.complete 3, EQLabel.complete 4, EQLabel.complete 5,
        EQLabel.runLoop])).1.eventQueue = [] := by
  decide

/-- C3 counterexample: with limit 5, six tasks already enqueued and the active
set still empty (so `active.length < MAX_CONCURRENCY`), enqueueing task 7 does
not get it into the next activation event: the next dispatch admits only
`[1..5]`, and 7 appears in no activation fired so far. -/
theorem enqueue_below_limit_cex :
    (runQueue 5 filtNat q5 L6).1.activeTasks.length < 5 ∧
    activationsOf (runQueue 5 filtNat q5 (L6 ++ [EQLabel.enq 7, EQLabel.runLoop])).2
      = [[1, 2, 3, 4, 5]] ∧
    (∀ ts ∈ activationsOf
        (runQueue 5 filtNat q5 (L6 ++ [EQLabel.enq 7, EQLabel.runLoop])).2,
      7 ∉ ts) := by
  decide

/-- C3 amended: a task enqueued while the active and pending lists together
leave room below `MAX_CONCURRENCY` — so in particular the active set is below
the limit and the backlog fits — is included in the activation event of the
next dispatch cycle that runs, without any `completeTask` call first (the
cycle being the one the enqueue itself schedules when dispatching was idle, or
one already scheduled). -/
theorem enqueue_below_limit_admitted (mx : Nat) (f : P → T → Bool) (s : EventQueue T)
    (t : T) (hls : s.isLoopScheduled = false) (hlis : 0 < s.listeners)
    (hcap : s.activeTasks.length + s.eventQueue.length < mx)
    (hdisp : s.isDispatching = false ∨ 0 < s.pendingLoops) :
    ∃ tasks, (stepQueue mx f (s.enqueue t).1 EQLabel.runLoop).2
      = [EQEvent.activation tasks] ∧ t ∈ tasks := by
  have h1q : (s.enqueue t).1.eventQueue = s.eventQueue ++ [t] := (enqueue_fst s t).1
  have h1a : (s.enqueue t).1.activeTasks = s.activeTasks := (enqueue_fst s t).2.1
  have h1l : (s.enqueue t).1.isLoopScheduled = false := by
    rw [(enqueue_fst s t).2.2.1]; exact hls
  have h1lis : (s.enqueue t).1.listeners = s.listeners := (enqueue_fst s t).2.2.2
  have hp : ¬ (s.enqueue t).1.pendingLoops = 0 := by
    rw [enqueue_pendingLoops]
    rcases hdisp with h | h
    · rw [if_pos h]; omega
    · by_cases hd : s.isDispatching = false
      · rw [if_pos hd]; omega
      · rw [if_neg hd]; omega
  simp only [stepQueue, if_neg hp]
  have hdrain : drainLoop mx (s.enqueue t).1.eventQueue (s.enqueue t).1.activeTasks
      = ([], (s.enqueue t).1.activeTasks ++ (s.enqueue t).1.eventQueue) := by
    apply drainLoop_admits_all
    rw [h1a, h1q]
    simp only [List.length_append, List.length_cons, List.length_nil]
    omega
  have hl2 : Emitter.hasListeners (s.enqueue t).1.listeners = true := by
    rw [h1lis]
    simp [Emitter.hasListeners, hlis]
  refine ⟨(s.enqueue t).1.activeTasks ++ (s.enqueue t).1.eventQueue, ?_, ?_⟩
  · rw [(queueLoop_update mx ((s.enqueue t).1.pendingLoops - 1) (s.enqueue t).1 h1l).2,
      if_pos hl2, hdrain]
  · rw [h1a, h1q]
    simp

/-- Witness for C3 (amended) at a concrete input: a fresh queue, limit 5. -/
theorem enqueue_below_limit_admitted_witness :
    ∃ tasks, (stepQueue 5 filtNat (q5.enqueue 3).1 EQLabel.runLoop).2
      = [EQEvent.activation tasks] ∧ 3 ∈ tasks :=
  enqueue_below_limit_admitted 5 filtNat q5 3 rfl (by decide) (by decide) (Or.inl rfl)

/-- C5 counterexample: on a destroyed queue a subsequent `enqueue` is not a
no-op — the pending list becomes `[9]`, not empty, refuting "the pending and
active lists remain empty". -/
theorem destroyed_enqueue_cex :
    ((EventQueue.destroy q5).1.enqueue 9).1.eventQueue = [9] ∧
    ((EventQueue.destroy q5).1.enqueue 9).1.eventQueue ≠ [] := by
  decide

/-- C5 amended: after `destroy()` no activation event can ever fire again —
the listeners are detached for good, so any sequence of further `enqueue`,
`completeTask`, `reActivation` calls and dispatch cycles emits no activation
and throws nothing (all operations are total) — but those calls are not state
no-ops: an enqueue re-populates the pending list (see the counterexample). -/
theorem destroyed_queue_no_activation (mx : Nat) (f : P → T → Bool) (s : EventQueue T)
    (L : List (EQLabel T P)) (ts : List T) :
    EQEvent.activation ts ∉ (runQueue mx f (EventQueue.destroy s).1 L).2 :=
  runQueue_no_activation mx f L (EventQueue.destroy s).1 rfl ts

end ClaimTheoremsB

section ColumnLemmas

theorem base_required_mem (v : JSValue) (hv : v = JSValue.null ∨ v = JSValue.undefined) :
    "value is required" ∈ ColumnType.verify true v := by
  rcases hv with h | h <;> subst h <;> decide

theorem jsLength_ok (v : JSValue) (h1 : v ≠ JSValue.null) (h2 : v ≠ JSValue.undefined) :
    ∃ lv, jsLength v = Except.ok lv := by
  cases v with
  | null => exact absurd rfl h1
  | undefined => exact absurd rfl h2
  | str s => exact ⟨_, rfl⟩
  | num n => exact ⟨_, rfl⟩
  | bool b => exact ⟨_, rfl⟩

theorem msgsWithLen_required_mem (c : ColumnText) (v lv : JSValue)
    (hreq : c.flags._required = true) (hv : v = JSValue.null ∨ v = JSValue.undefined) :
    "value is required" ∈ c.msgsWithLen v lv := by
  have hm := base_required_mem v hv
  unfold ColumnText.msgsWithLen
  rw [hreq]
  simp only [List.mem_append]
  tauto

end ColumnLemmas

section ClaimTheoremsC

/-- C9 counterexample: a declared text column with a max bound, applied to the
value `null`, does not return a list of violation messages — reading
`value.length` in the max-length check throws a `TypeError`. -/
theorem verify_throws_cex :
    Column.verify (Column.text { _max := Option.some 5 }) JSValue.null
      = Except.error "TypeError" := by
  rfl

/-- C9 amended: `verify(value)` returns a list of violation messages (and
throws nothing) for every declared column and value, except that a text
column carrying a truthy max or min length bound (possibly under optional
wrappers) throws a `TypeError` on `null`/`undefined` values; whenever it
returns and the column's governing required flag is set, a `null` or
`undefined` value yields the message "value is required". -/
theorem verify_ok_characterization (c : Column) (v : JSValue)
    (h : Column.hasLenBound c = false ∨ (v ≠ JSValue.null ∧ v ≠ JSValue.undefined)) :
    ∃ msgs, Column.verify c v = Except.ok msgs ∧
      (Column.requiredFlag c = true → (v = JSValue.null ∨ v = JSValue.undefined) →
        "value is required" ∈ msgs) := by
  induction c with
  | text c =>
    simp only [Column.verify, Column.requiredFlag]
    simp only [Column.hasLenBound] at h
    by_cases hu : c.usesLen = false
    · refine ⟨c.msgsWithLen v JSValue.undefined, ?_, ?_⟩
      · simp [ColumnText.verify, hu]
      · intro hreq hv
        exact msgsWithLen_required_mem c v JSValue.undefined hreq hv
    · have hu' : c.usesLen = true := by revert hu; cases c.usesLen <;> simp
      have hv : v ≠ JSValue.null ∧ v ≠ JSValue.undefined := by
        rcases h with h | h
        · rw [hu'] at h
          exact Bool.noConfusion h
        · exact h
      obtain ⟨lv, hlv⟩ := jsLength_ok v hv.1 hv.2
      refine ⟨c.msgsWithLen v lv, ?_, ?_⟩
      · simp [ColumnText.verify, hu', hlv]
      · intro hreq hvv
        rcases hvv with h' | h'
        · exact absurd h' hv.1
        · exact absurd h' hv.2
  | integer c =>
    simp only [Column.verify, Column.requiredFlag]
    refine ⟨_, rfl, ?_⟩
    intro hreq hv
    have hm := base_required_mem v hv
    rw [hreq]
    simp only [List.mem_append]
    tauto
  | boolean c =>
    simp only [Column.verify, Column.requiredFlag]
    refine ⟨_, rfl, ?_⟩
    intro hreq hv
    have hm := base_required_mem v hv
    rw [hreq]
    simp only [List.mem_append]
    tauto
  | date c =>
    simp only [Column.verify, Column.requiredFlag]
    refine ⟨_, rfl, ?_⟩
    intro hreq hv
    rw [hreq]
    exact base_required_mem v hv
  | optional c ih =>
    simp only [Column.verify, Column.requiredFlag]
    apply ih
    simpa only [Column.hasLenBound] using h

/-- Witness for C9 (amended) at a concrete input: a plain integer column (no
length bound) applied to `null`. -/
theorem verify_ok_characterization_witness :
    ∃ msgs, Column.verify (Column.integer {}) JSValue.null = Except.ok msgs ∧
      (Column.requiredFlag (Column.integer {}) = true →
        (JSValue.null = JSValue.null ∨ JSValue.null = JSValue.undefined) →
        "value is required" ∈ msgs) :=
  verify_ok_characterization (Column.integer {}) JSValue.null (Or.inl rfl)

/-- C10: `genCreateSql` throws (with the message "AUTOINCREMENT can only be
applied to a primary key") exactly when the auto-increment flag is set without
the primary flag; otherwise the returned fragment is an in-order selection
from `PRIMARY KEY, NOT NULL, UNIQUE, AUTOINCREMENT`, each keyword present if
and only if the corresponding flag is set. -/
theorem genCreateSql_spec (f : ColumnFlags) :
    (ColumnType.genCreateSql f
        = Except.error "AUTOINCREMENT can only be applied to a primary key"
      ↔ (f._autoIncrement = true ∧ f._primary = false)) ∧
    (∀ l, ColumnType.genCreateSql f = Except.ok l →
      List.Sublist l ["PRIMARY KEY", "NOT NULL", "UNIQUE", "AUTOINCREMENT"] ∧
      ("PRIMARY KEY" ∈ l ↔ f._primary = true) ∧
      ("NOT NULL" ∈ l ↔ f._required = true) ∧
      ("UNIQUE" ∈ l ↔ f._unique = true) ∧
      ("AUTOINCREMENT" ∈ l ↔ f._autoIncrement = true)) := by
  obtain ⟨r, u, p, a⟩ := f
  cases r <;> cases u <;> cases p <;> cases a <;>
    refine ⟨by simp [ColumnType.genCreateSql], fun l hl => ?_⟩ <;>
      simp [ColumnType.genCreateSql] at hl <;> subst hl <;> decide

/-- Witness for C10 at a concrete input: primary, required, unique and
auto-increment all set. -/
theorem genCreateSql_spec_witness :
    List.Sublist ["PRIMARY KEY", "NOT NULL", "UNIQUE", "AUTOINCREMENT"]
      ["PRIMARY KEY", "NOT NULL", "UNIQUE", "AUTOINCREMENT"] ∧
    ("PRIMARY KEY" ∈ ["PRIMARY KEY", "NOT NULL", "UNIQUE", "AUTOINCREMENT"] ↔ true = true) ∧
    ("NOT NULL" ∈ ["PRIMARY KEY", "NOT NULL", "UNIQUE", "AUTOINCREMENT"] ↔ true = true) ∧
    ("UNIQUE" ∈ ["PRIMARY KEY", "NOT NULL", "UNIQUE", "AUTOINCREMENT"] ↔ true = true) ∧
    ("AUTOINCREMENT" ∈ ["PRIMARY KEY", "NOT NULL", "UNIQUE", "AUTOINCREMENT"] ↔ true = true) :=
  (genCreateSql_spec
      { _required := true, _unique := true, _primary := true, _autoIncrement := true }).2
    ["PRIMARY KEY", "NOT NULL", "UNIQUE", "AUTOINCREMENT"] rfl

end ClaimTheoremsC
